import Mathlib

/-!
Shallow embedding of the multi-algorithm image registration engine
(`image_registration/engine.py`, `image_registration/algorithms.py`,
`image_registration/exceptions.py`) together with theorems checking the
natural-language specification against it.

Modelling conventions:
* Python floats used for scores and thresholds are embedded as rationals
  (`ℚ`); every claim about them is order-theoretic, never about rounding.
* Python numeric formatting inside f-strings (`{x}`, `{x:.3f}`) is
  abstracted as `toString` on the embedded number; the claims about
  messages only concern which algorithm names / numbers appear in them.
* Exceptions become an explicit error type `PyError`; a fallible
  operation returns `Except PyError _`.  In the source,
  `ConfigurationError` and `AlgorithmError` are subclasses of
  `RegistrationError`, and `ValueError` is the Python builtin; the flat
  inductive keeps them distinguishable.
* An algorithm (an `AlgorithmBase` instance) is embedded as its `align`
  method: a function from the two (opaque) images to an outcome, which
  is a result, an empty outcome (Python `None`), or a raised fault.
* The engine's registry, a Python 3.7+ `dict`, is embedded as an
  association list in insertion order; `dictInsert` / the delete in
  `unregister_algorithm` embed the documented CPython `dict` semantics
  (assignment to an existing key keeps its position, a new key is
  appended; `del` removes the entry).
* The `register` method mutates nothing on `self`; it is embedded as a
  state transformer that threads `self` through the trial loop and
  returns it alongside the `Except` outcome, so that frame properties
  are provable rather than assumed.
-/

deriving instance DecidableEq for Except

namespace ImageRegistration

/-- Error taxonomy of the embedded code: Python's builtin `ValueError`
plus the repository's `RegistrationError` and `ConfigurationError`
(see `exceptions.py`). -/
inductive PyError where
  | valueError (msg : String)
  | registrationError (msg : String)
  | configurationError (msg : String)
  deriving DecidableEq

/-- Rendering of an embedded float into a message string; stands for
Python's `{x}` / `{x:.3f}` formatting, whose exact digits no claim
depends on. -/
def fmt (q : ℚ) : String := toString q

/-- Container for registration algorithm output
(`algorithms.py`, dataclass `RegistrationResult`).  The homography and
metadata payloads are opaque to the engine, so they are type
parameters. -/
structure RegistrationResult (H M : Type) where
  score : ℚ
  inlier_ratio : ℚ
  homography : H
  matches_count : ℤ
  metadata : Option M
  deriving DecidableEq

/-- Construction of a `RegistrationResult`, running the validation of
`RegistrationResult.__post_init__` (`algorithms.py` lines 43-50): each
out-of-range field raises `ValueError`. -/
def mkRegistrationResult {H M : Type} (score inlier_ratio : ℚ) (homography : H)
    (matches_count : ℤ) (metadata : Option M) :
    Except PyError (RegistrationResult H M) :=
  if ¬ (0 ≤ score ∧ score ≤ 1) then
    .error (.valueError (("Score must be in [0.0, 1.0], got ") ++ fmt score))
  else if ¬ (0 ≤ inlier_ratio ∧ inlier_ratio ≤ 1) then
    .error (.valueError (("Inlier ratio must be in [0.0, 1.0], got ") ++ fmt inlier_ratio))
  else if matches_count < 0 then
    .error (.valueError (("Matches count must be >= 0, got ") ++ toString matches_count))
  else
    .ok ⟨score, inlier_ratio, homography, matches_count, metadata⟩

/-- Configuration for the registration engine (`engine.py`, dataclass
`EngineConfig`), with the source's default field values. -/
structure EngineConfig where
  min_score : ℚ := mkRat 85 100
  min_inlier_ratio : ℚ := mkRat 6 10
  enable_fallback : Bool := true
  deriving DecidableEq

/-- Construction of an `EngineConfig`, running the validation of
`EngineConfig.__post_init__` (`engine.py` lines 56-61): an out-of-range
threshold raises `ValueError`. -/
def mkEngineConfig (min_score min_inlier_ratio : ℚ) (enable_fallback : Bool) :
    Except PyError EngineConfig :=
  if ¬ (0 ≤ min_score ∧ min_score ≤ 1) then
    .error (.valueError (("min_score must be in [0.0, 1.0], got ") ++ fmt min_score))
  else if ¬ (0 ≤ min_inlier_ratio ∧ min_inlier_ratio ≤ 1) then
    .error (.valueError (("min_inlier_ratio must be in [0.0, 1.0], got ") ++ fmt min_inlier_ratio))
  else
    .ok ⟨min_score, min_inlier_ratio, enable_fallback⟩

/-- Outcome of one `align(src_img, ref_img)` call: a result, Python
`None` (no valid alignment), or a raised exception carrying a
message. -/
inductive AlignOutcome (H M : Type) where
  | ok (result : RegistrationResult H M)
  | empty
  | fault (msg : String)
  deriving DecidableEq

/-- An algorithm (`AlgorithmBase` of `algorithms.py`) embedded as its
`align` method over opaque image type `Img`. -/
abbrev AlgorithmBase (Img H M : Type) := Img → Img → AlignOutcome H M

/-- Final output from the registration engine (`engine.py`, dataclass
`RegistrationOutput`).  The `status` field keeps the source's string
values, `"accepted"` and `"fallback_low_confidence"`. -/
structure RegistrationOutput (H M : Type) where
  algorithm : String
  status : String
  result : RegistrationResult H M
  attempts : List String
  deriving DecidableEq

/-- State of an `ImageRegistrationEngine`: the insertion-ordered
algorithm registry (a Python dict, embedded as an association list) and
the config.  The logger is an observable side channel only and is not
modelled. -/
structure ImageRegistrationEngine (Img H M : Type) where
  algorithms : List (String × AlgorithmBase Img H M)
  config : EngineConfig

/-- Constructor `ImageRegistrationEngine.__init__` (`engine.py` lines
92-115): an empty registry raises `ConfigurationError`; a missing
config falls back to `EngineConfig()` defaults. -/
def ImageRegistrationEngine.init {Img H M : Type}
    (algorithms : List (String × AlgorithmBase Img H M))
    (config : Option EngineConfig) :
    Except PyError (ImageRegistrationEngine Img H M) :=
  if algorithms.isEmpty then
    .error (.configurationError ("At least one algorithm must be provided"))
  else
    .ok ⟨algorithms, config.getD {}⟩

/-- Embeds Python `", ".join(attempts)`. -/
def joinComma : List String → String
  | [] => ""
  | [s] => s
  | s :: rest => s ++ ", " ++ joinComma rest

/-- Acceptance predicate `_is_acceptable` (`engine.py` lines 216-221):
`score >= min_score and inlier_ratio >= min_inlier_ratio`. -/
def is_acceptable {H M : Type} (config : EngineConfig) (result : RegistrationResult H M) : Bool :=
  decide (result.score ≥ config.min_score) && decide (result.inlier_ratio ≥ config.min_inlier_ratio)

/-- Best-result tracking step of the trial loop (`engine.py` lines
166-169): `if best_result is None or result.score > best_result.score`,
i.e. the best is replaced only on strictly greater score. -/
def updateBest {H M : Type} (best : Option (String × RegistrationResult H M))
    (name : String) (result : RegistrationResult H M) :
    Option (String × RegistrationResult H M) :=
  match best with
  | none => some (name, result)
  | some (best_algorithm, best_result) =>
    if best_result.score < result.score then some (name, result)
    else some (best_algorithm, best_result)

/-- Post-loop resolution of `register` (`engine.py` lines 184-214): no
usable result raises `RegistrationError` naming the attempts; with
fallback disabled raises `RegistrationError` reporting thresholds and
the best score and its algorithm; otherwise returns the
low-confidence fallback output. -/
def finalize {Img H M : Type} (self : ImageRegistrationEngine Img H M)
    (best : Option (String × RegistrationResult H M)) (attempts : List String) :
    Except PyError (RegistrationOutput H M) :=
  match best with
  | none =>
    .error (.registrationError
      (("No alignment produced a valid homography. Attempted: ") ++ joinComma attempts))
  | some (best_algorithm, best_result) =>
    if !self.config.enable_fallback then
      .error (.registrationError
        (("No alignment met quality thresholds (min_score=") ++ fmt self.config.min_score ++
          ", min_inlier_ratio=" ++ fmt self.config.min_inlier_ratio ++
          "). Best score: " ++ fmt best_result.score ++ " from " ++ best_algorithm))
    else
      .ok ⟨best_algorithm, "fallback_low_confidence", best_result, attempts⟩

/-- Trial loop of `register` (`engine.py` lines 140-214), one step per
registry entry, threading `self` (which the source never mutates) and
the loop locals `best`/`attempts`.  A fault or an empty outcome is
skipped; otherwise the best is tracked and an acceptable result returns
immediately with status `"accepted"`. -/
def registerLoop {Img H M : Type} (self : ImageRegistrationEngine Img H M)
    (src_img ref_img : Img) :
    List (String × AlgorithmBase Img H M) →
    Option (String × RegistrationResult H M) → List String →
    Except PyError (RegistrationOutput H M) × ImageRegistrationEngine Img H M
  | [], best, attempts => (finalize self best attempts, self)
  | (name, algo) :: rest, best, attempts =>
    match algo src_img ref_img with
    | .fault _ => registerLoop self src_img ref_img rest best (attempts ++ [name])
    | .empty => registerLoop self src_img ref_img rest best (attempts ++ [name])
    | .ok result =>
      let best' := updateBest best name result
      if is_acceptable self.config result then
        (.ok ⟨name, "accepted", result, attempts ++ [name]⟩, self)
      else
        registerLoop self src_img ref_img rest best' (attempts ++ [name])

/-- Method `register` (`engine.py` lines 117-214) as a state
transformer: the outcome, plus the engine state after the call. -/
def register {Img H M : Type} (self : ImageRegistrationEngine Img H M)
    (src_img ref_img : Img) :
    Except PyError (RegistrationOutput H M) × ImageRegistrationEngine Img H M :=
  registerLoop self src_img ref_img self.algorithms none []

/-- Method `register_algorithm` (`engine.py` lines 223-232):
`self.algorithms[name] = algorithm` with CPython dict semantics — an
existing key is overwritten at its position, a new key is appended. -/
def register_algorithm {Img H M : Type} (self : ImageRegistrationEngine Img H M)
    (name : String) (algorithm : AlgorithmBase Img H M) :
    ImageRegistrationEngine Img H M :=
  { self with algorithms :=
      if self.algorithms.any (fun p => decide (p.1 = name)) then
        self.algorithms.map (fun p => if p.1 = name then (name, algorithm) else p)
      else
        self.algorithms ++ [(name, algorithm)] }

/-- Method `unregister_algorithm` (`engine.py` lines 234-249): raises
`ConfigurationError` when the registry has exactly one entry, else
deletes the entry when the name is present (`if name in
self.algorithms: del self.algorithms[name]`). -/
def unregister_algorithm {Img H M : Type} (self : ImageRegistrationEngine Img H M)
    (name : String) :
    Except PyError (ImageRegistrationEngine Img H M) :=
  if self.algorithms.length = 1 then
    .error (.configurationError ("Cannot remove the last algorithm"))
  else if self.algorithms.any (fun p => decide (p.1 = name)) then
    .ok { self with algorithms := self.algorithms.filter (fun p => decide (p.1 ≠ name)) }
  else
    .ok self

/-- Derived notion used to state the claims: the named non-empty
outcomes the registry produces on a given image pair, in registry
order. -/
def okOutcomes {Img H M : Type} (algs : List (String × AlgorithmBase Img H M))
    (src_img ref_img : Img) : List (String × RegistrationResult H M) :=
  algs.filterMap (fun p =>
    match p.2 src_img ref_img with
    | .ok result => some (p.1, result)
    | _ => none)

/-- Derived notion used to state the claims: the best-so-far tracking
of the trial loop folded over a list of named results. -/
def foldBest {H M : Type} (best : Option (String × RegistrationResult H M))
    (l : List (String × RegistrationResult H M)) :
    Option (String × RegistrationResult H M) :=
  l.foldl (fun b p => updateBest b p.1 p.2) best

/-- Unfolding of the acceptance predicate into the two inclusive
threshold comparisons of the spec. -/
theorem is_acceptable_iff {H M : Type} (cfg : EngineConfig) (res : RegistrationResult H M) :
    is_acceptable cfg res = true ↔
      (res.score ≥ cfg.min_score ∧ res.inlier_ratio ≥ cfg.min_inlier_ratio) := by
  simp [is_acceptable]

/-- Membership in `okOutcomes` from a registry entry with a non-empty
outcome. -/
theorem mem_okOutcomes {Img H M : Type} {l : List (String × AlgorithmBase Img H M)}
    {src_img ref_img : Img} {p : String × AlgorithmBase Img H M} (hp : p ∈ l)
    {res : RegistrationResult H M} (h : p.2 src_img ref_img = .ok res) :
    (p.1, res) ∈ okOutcomes l src_img ref_img := by
  simp only [okOutcomes, List.mem_filterMap]
  exact ⟨p, hp, by rw [h]⟩

/-- Bridge from the claim-level hypothesis (no non-empty outcome meets
both thresholds) to the per-entry boolean form used by the loop. -/
theorem unacc_of_okOutcomes {Img H M : Type} (cfg : EngineConfig)
    (l : List (String × AlgorithmBase Img H M)) (src_img ref_img : Img)
    (h : ∀ q ∈ okOutcomes l src_img ref_img,
      ¬ (q.2.score ≥ cfg.min_score ∧ q.2.inlier_ratio ≥ cfg.min_inlier_ratio)) :
    ∀ p ∈ l, ∀ res, p.2 src_img ref_img = .ok res → is_acceptable cfg res = false := by
  intro p hp res hres
  rw [Bool.eq_false_iff]
  intro hacc
  exact h (p.1, res) (mem_okOutcomes hp hres) ((is_acceptable_iff cfg res).mp hacc)

/-- Frame property of the trial loop: the engine threaded through it
comes back unchanged. -/
theorem registerLoop_state {Img H M : Type} (self : ImageRegistrationEngine Img H M)
    (src_img ref_img : Img) :
    ∀ (l : List (String × AlgorithmBase Img H M)) best attempts,
      (registerLoop self src_img ref_img l best attempts).2 = self := by
  intro l
  induction l with
  | nil => intro best attempts; rfl
  | cons hd tl ih =>
    intro best attempts
    obtain ⟨name, algo⟩ := hd
    cases h : algo src_img ref_img with
    | ok result =>
      by_cases hacc : is_acceptable self.config result = true
      · simp [registerLoop, h, hacc]
      · simp [registerLoop, h, hacc, ih]
    | empty => simp [registerLoop, h, ih]
    | fault m => simp [registerLoop, h, ih]

/-- Skipping a prefix of entries none of whose non-empty outcomes is
acceptable: the loop reaches the remainder with the prefix names
appended to the attempts, for some tracked best. -/
theorem registerLoop_skip {Img H M : Type} (self : ImageRegistrationEngine Img H M)
    (src_img ref_img : Img) :
    ∀ (pre rest : List (String × AlgorithmBase Img H M)) best attempts,
      (∀ p ∈ pre, ∀ res, p.2 src_img ref_img = .ok res →
        is_acceptable self.config res = false) →
      ∃ best', registerLoop self src_img ref_img (pre ++ rest) best attempts =
        registerLoop self src_img ref_img rest best' (attempts ++ pre.map Prod.fst) := by
  intro pre
  induction pre with
  | nil => intro rest best attempts _; exact ⟨best, by simp⟩
  | cons hd tl ih =>
    intro rest best attempts hpre
    obtain ⟨name, algo⟩ := hd
    have htl : ∀ p ∈ tl, ∀ res, p.2 src_img ref_img = .ok res →
        is_acceptable self.config res = false :=
      fun p hp res hres => hpre p (List.mem_cons_of_mem _ hp) res hres
    cases h : algo src_img ref_img with
    | ok result =>
      have hacc : is_acceptable self.config result = false :=
        hpre (name, algo) (List.mem_cons_self _ _) result h
      obtain ⟨best', hb⟩ := ih rest (updateBest best name result) (attempts ++ [name]) htl
      exact ⟨best', by simp [registerLoop, h, hacc, hb]⟩
    | empty =>
      obtain ⟨best', hb⟩ := ih rest best (attempts ++ [name]) htl
      exact ⟨best', by simp [registerLoop, h, hb]⟩
    | fault m =>
      obtain ⟨best', hb⟩ := ih rest best (attempts ++ [name]) htl
      exact ⟨best', by simp [registerLoop, h, hb]⟩

/-- C9: register() leaves the engine's registry (entries and order) and
config unchanged whatever it returns, and a second call on the
post-call state behaves exactly like a call on the original engine —
calls are independent and share no session state. -/
theorem register_frame_and_independent {Img H M : Type}
    (e : ImageRegistrationEngine Img H M) (src_img ref_img src' ref' : Img) :
    (register e src_img ref_img).2 = e ∧
    ((register e src_img ref_img).2).algorithms = e.algorithms ∧
    ((register e src_img ref_img).2).config = e.config ∧
    register ((register e src_img ref_img).2) src' ref' = register e src' ref' := by
  have h : (register e src_img ref_img).2 = e :=
    registerLoop_state e src_img ref_img e.algorithms none []
  exact ⟨h, by rw [h], by rw [h], by rw [h]⟩

/-- Unfolding equation of `okOutcomes` at an entry with a non-empty
outcome. -/
theorem okOutcomes_cons_ok {Img H M : Type} {algo : AlgorithmBase Img H M}
    {src_img ref_img : Img} {result : RegistrationResult H M} (name : String)
    (tl : List (String × AlgorithmBase Img H M))
    (hout : algo src_img ref_img = .ok result) :
    okOutcomes ((name, algo) :: tl) src_img ref_img =
      (name, result) :: okOutcomes tl src_img ref_img := by
  simp [okOutcomes, List.filterMap_cons, hout]

/-- Unfolding equation of `okOutcomes` at an entry returning `None`. -/
theorem okOutcomes_cons_empty {Img H M : Type} {algo : AlgorithmBase Img H M}
    {src_img ref_img : Img} (name : String)
    (tl : List (String × AlgorithmBase Img H M))
    (hout : algo src_img ref_img = .empty) :
    okOutcomes ((name, algo) :: tl) src_img ref_img = okOutcomes tl src_img ref_img := by
  simp [okOutcomes, List.filterMap_cons, hout]

/-- Unfolding equation of `okOutcomes` at a faulting entry. -/
theorem okOutcomes_cons_fault {Img H M : Type} {algo : AlgorithmBase Img H M}
    {src_img ref_img : Img} {m : String} (name : String)
    (tl : List (String × AlgorithmBase Img H M))
    (hout : algo src_img ref_img = .fault m) :
    okOutcomes ((name, algo) :: tl) src_img ref_img = okOutcomes tl src_img ref_img := by
  simp [okOutcomes, List.filterMap_cons, hout]

/-- Unfolding equation of `foldBest`. -/
theorem foldBest_cons {H M : Type} (best : Option (String × RegistrationResult H M))
    (p : String × RegistrationResult H M) (l : List (String × RegistrationResult H M)) :
    foldBest best (p :: l) = foldBest (updateBest best p.1 p.2) l := rfl

/-- Exhaustive run of the trial loop: when no non-empty outcome in `l`
is acceptable, the loop never exits early, tracks the best over exactly
the non-empty outcomes, and resolves through `finalize` with every name
appended to the attempts. -/
theorem registerLoop_exhaust {Img H M : Type} (self : ImageRegistrationEngine Img H M)
    (src_img ref_img : Img) :
    ∀ (l : List (String × AlgorithmBase Img H M)) best attempts,
      (∀ p ∈ l, ∀ res, p.2 src_img ref_img = .ok res →
        is_acceptable self.config res = false) →
      (registerLoop self src_img ref_img l best attempts).1 =
        finalize self (foldBest best (okOutcomes l src_img ref_img))
          (attempts ++ l.map Prod.fst) := by
  intro l
  induction l with
  | nil => intro best attempts _; simp [registerLoop, okOutcomes, foldBest]
  | cons hd tl ih =>
    intro best attempts h
    obtain ⟨name, algo⟩ := hd
    have htl : ∀ p ∈ tl, ∀ res, p.2 src_img ref_img = .ok res →
        is_acceptable self.config res = false :=
      fun p hp res hres => h p (List.mem_cons_of_mem _ hp) res hres
    cases hout : algo src_img ref_img with
    | ok result =>
      have hacc : is_acceptable self.config result = false :=
        h (name, algo) (List.mem_cons_self _ _) result hout
      rw [okOutcomes_cons_ok name tl hout, foldBest_cons]
      simp only [registerLoop, hout, hacc, Bool.false_eq_true, if_false]
      rw [ih (updateBest best name result) (attempts ++ [name]) htl]
      simp [List.append_assoc]
    | empty =>
      rw [okOutcomes_cons_empty name tl hout]
      simp only [registerLoop, hout]
      rw [ih best (attempts ++ [name]) htl]
      simp [List.append_assoc]
    | fault m =>
      rw [okOutcomes_cons_fault name tl hout]
      simp only [registerLoop, hout]
      rw [ih best (attempts ++ [name]) htl]
      simp [List.append_assoc]

/-- Characterization of the best-so-far fold with a non-empty
accumulator: either the accumulator survives and bounds every list
element, or the fold picks a strictly better element that strictly
beats everything before it and weakly beats everything after it. -/
theorem foldBest_some_spec {H M : Type} :
    ∀ (l : List (String × RegistrationResult H M)) (b : String × RegistrationResult H M),
      (foldBest (some b) l = some b ∧ ∀ q ∈ l, q.2.score ≤ b.2.score) ∨
      (∃ l1 p l2, l = l1 ++ p :: l2 ∧ foldBest (some b) l = some p ∧
        b.2.score < p.2.score ∧ (∀ q ∈ l1, q.2.score < p.2.score) ∧
        (∀ q ∈ l2, q.2.score ≤ p.2.score)) := by
  intro l
  induction l with
  | nil => intro b; left; exact ⟨rfl, by simp⟩
  | cons q l ih =>
    intro b
    by_cases hlt : b.2.score < q.2.score
    · have hfold : foldBest (some b) (q :: l) = foldBest (some q) l := by
        simp [foldBest_cons, updateBest, hlt]
      rcases ih q with ⟨hf, hall⟩ | ⟨l1, p, l2, hdec, hf, hbp, h1, h2⟩
      · right
        exact ⟨[], q, l, by simp, by rw [hfold, hf], hlt, by simp, hall⟩
      · right
        refine ⟨q :: l1, p, l2, by rw [hdec]; rfl, by rw [hfold, hf],
          lt_trans hlt hbp, ?_, h2⟩
        intro x hx
        rcases List.mem_cons.mp hx with rfl | hx'
        · exact hbp
        · exact h1 x hx'
    · have hq : q.2.score ≤ b.2.score := le_of_not_lt hlt
      have hfold : foldBest (some b) (q :: l) = foldBest (some b) l := by
        simp [foldBest_cons, updateBest, hlt]
      rcases ih b with ⟨hf, hall⟩ | ⟨l1, p, l2, hdec, hf, hbp, h1, h2⟩
      · left
        refine ⟨by rw [hfold, hf], ?_⟩
        intro x hx
        rcases List.mem_cons.mp hx with rfl | hx'
        · exact hq
        · exact hall x hx'
      · right
        refine ⟨q :: l1, p, l2, by rw [hdec]; rfl, by rw [hfold, hf], hbp, ?_, h2⟩
        intro x hx
        rcases List.mem_cons.mp hx with rfl | hx'
        · exact lt_of_le_of_lt hq hbp
        · exact h1 x hx'

/-- Position of the fold-tracked best inside a non-empty list: it is
the earliest element of maximal score — everything before it scores
strictly lower, everything after scores no higher. -/
theorem foldBest_none_max {H M : Type} (l : List (String × RegistrationResult H M))
    (hne : l ≠ []) :
    ∃ l1 p l2, l = l1 ++ p :: l2 ∧ foldBest none l = some p ∧
      (∀ q ∈ l1, q.2.score < p.2.score) ∧ (∀ q ∈ l2, q.2.score ≤ p.2.score) := by
  cases l with
  | nil => exact absurd rfl hne
  | cons q l =>
    have hfold : foldBest none (q :: l) = foldBest (some q) l := rfl
    rcases foldBest_some_spec l q with ⟨hf, hall⟩ | ⟨l1, p, l2, hdec, hf, hbp, h1, h2⟩
    · exact ⟨[], q, l, by simp, by rw [hfold, hf], by simp, hall⟩
    · refine ⟨q :: l1, p, l2, by rw [hdec]; rfl, by rw [hfold, hf], ?_, h2⟩
      intro x hx
      rcases List.mem_cons.mp hx with rfl | hx'
      · exact hbp
      · exact h1 x hx'

/-- C2: with all earlier non-empty outcomes failing the (inclusive)
acceptance thresholds, the first algorithm whose result satisfies
`score ≥ min_score` and `inlier_ratio ≥ min_inlier_ratio` makes
register() return immediately: status `"accepted"`, that algorithm's
name, that exact result, and the names tried so far as attempts.  The
conclusion does not depend on `post`, so the later-registered
algorithms are observably never invoked. -/
theorem register_early_exit {Img H M : Type} (e : ImageRegistrationEngine Img H M)
    (src_img ref_img : Img) (pre post : List (String × AlgorithmBase Img H M))
    (name : String) (algo : AlgorithmBase Img H M) (res : RegistrationResult H M)
    (hreg : e.algorithms = pre ++ (name, algo) :: post)
    (hpre : ∀ q ∈ okOutcomes pre src_img ref_img,
      ¬ (q.2.score ≥ e.config.min_score ∧ q.2.inlier_ratio ≥ e.config.min_inlier_ratio))
    (hres : algo src_img ref_img = .ok res)
    (hscore : res.score ≥ e.config.min_score)
    (hinlier : res.inlier_ratio ≥ e.config.min_inlier_ratio) :
    (register e src_img ref_img).1 =
      .ok ⟨name, "accepted", res, pre.map Prod.fst ++ [name]⟩ := by
  have hpre' := unacc_of_okOutcomes e.config pre src_img ref_img hpre
  obtain ⟨best', hb⟩ := registerLoop_skip e src_img ref_img pre ((name, algo) :: post)
    none [] hpre'
  have hacc : is_acceptable e.config res = true :=
    (is_acceptable_iff e.config res).mpr ⟨hscore, hinlier⟩
  simp [register, hreg, hb, registerLoop, hres, hacc]

/-- C1: when fallback is enabled, no non-empty outcome meets both
thresholds, and at least one algorithm returned a non-empty result,
register() returns status `"fallback_low_confidence"` carrying the
maximum-score result among all non-empty outcomes, named by the
algorithm that produced it, with every tried algorithm in `attempts`;
the witnessing decomposition shows the earliest result wins exact score
ties (strictly lower scores before it, no higher score after it). -/
theorem register_fallback_best {Img H M : Type} (e : ImageRegistrationEngine Img H M)
    (src_img ref_img : Img)
    (hfb : e.config.enable_fallback = true)
    (hacc : ∀ q ∈ okOutcomes e.algorithms src_img ref_img,
      ¬ (q.2.score ≥ e.config.min_score ∧ q.2.inlier_ratio ≥ e.config.min_inlier_ratio))
    (hne : okOutcomes e.algorithms src_img ref_img ≠ []) :
    ∃ l1 bn br l2,
      okOutcomes e.algorithms src_img ref_img = l1 ++ (bn, br) :: l2 ∧
      (∀ q ∈ l1, q.2.score < br.score) ∧
      (∀ q ∈ l2, q.2.score ≤ br.score) ∧
      (register e src_img ref_img).1 =
        .ok ⟨bn, "fallback_low_confidence", br, e.algorithms.map Prod.fst⟩ := by
  have hex := registerLoop_exhaust e src_img ref_img e.algorithms none []
    (unacc_of_okOutcomes e.config e.algorithms src_img ref_img hacc)
  obtain ⟨l1, p, l2, hdec, hf, h1, h2⟩ := foldBest_none_max _ hne
  obtain ⟨bn, br⟩ := p
  refine ⟨l1, bn, br, l2, hdec, h1, h2, ?_⟩
  rw [register, hex, hf]
  simp [finalize, hfb]

/-- C3 (amended): with fallback disabled, no non-empty outcome meeting
both thresholds, and at least one non-empty result, register() raises
`RegistrationError` whose message reports the two configured thresholds
and the best score actually achieved, and names the algorithm that
produced the best score — but not every attempted algorithm. -/
theorem register_no_fallback_error {Img H M : Type} (e : ImageRegistrationEngine Img H M)
    (src_img ref_img : Img)
    (hfb : e.config.enable_fallback = false)
    (hacc : ∀ q ∈ okOutcomes e.algorithms src_img ref_img,
      ¬ (q.2.score ≥ e.config.min_score ∧ q.2.inlier_ratio ≥ e.config.min_inlier_ratio))
    (hne : okOutcomes e.algorithms src_img ref_img ≠ []) :
    ∃ l1 bn br l2,
      okOutcomes e.algorithms src_img ref_img = l1 ++ (bn, br) :: l2 ∧
      (∀ q ∈ l1, q.2.score < br.score) ∧
      (∀ q ∈ l2, q.2.score ≤ br.score) ∧
      (register e src_img ref_img).1 = .error (.registrationError
        (("No alignment met quality thresholds (min_score=") ++ fmt e.config.min_score ++
          ", min_inlier_ratio=" ++ fmt e.config.min_inlier_ratio ++
          "). Best score: " ++ fmt br.score ++ " from " ++ bn)) := by
  have hex := registerLoop_exhaust e src_img ref_img e.algorithms none []
    (unacc_of_okOutcomes e.config e.algorithms src_img ref_img hacc)
  obtain ⟨l1, p, l2, hdec, hf, h1, h2⟩ := foldBest_none_max _ hne
  obtain ⟨bn, br⟩ := p
  refine ⟨l1, bn, br, l2, hdec, h1, h2, ?_⟩
  rw [register, hex, hf]
  simp [finalize, hfb]

/-- Every member of a list of names occurs inside its comma join. -/
theorem mem_infix_joinComma : ∀ (l : List String), ∀ n ∈ l, n.data <:+: (joinComma l).data := by
  intro l
  induction l with
  | nil => intro n hn; simp at hn
  | cons s t ih =>
    intro n hn
    cases t with
    | nil =>
      rw [List.mem_singleton.mp hn]
      exact List.infix_refl _
    | cons s' t' =>
      rcases List.mem_cons.mp hn with rfl | h
      · exact ⟨[], (", ").data ++ (joinComma (s' :: t')).data,
          by simp [joinComma, String.data_append]⟩
      · have h2 : (joinComma (s' :: t')).data <:+: (joinComma (s :: s' :: t')).data :=
          ⟨(s ++ ", ").data, [], by simp [joinComma, String.data_append]⟩
        exact (ih n h).trans h2

/-- C6: when every algorithm's outcome at the given image pair is an
empty outcome or a fault (no non-empty result at all), register()
raises `RegistrationError` whose message lists the names of all
attempted algorithms — each registered name occurs in the message. -/
theorem register_all_unusable_error {Img H M : Type} (e : ImageRegistrationEngine Img H M)
    (src_img ref_img : Img)
    (hnone : okOutcomes e.algorithms src_img ref_img = []) :
    (register e src_img ref_img).1 = .error (.registrationError
      (("No alignment produced a valid homography. Attempted: ") ++
        joinComma (e.algorithms.map Prod.fst))) ∧
    ∀ n ∈ e.algorithms.map Prod.fst,
      n.data <:+: (("No alignment produced a valid homography. Attempted: ") ++
        joinComma (e.algorithms.map Prod.fst)).data := by
  have hacc : ∀ q ∈ okOutcomes e.algorithms src_img ref_img,
      ¬ (q.2.score ≥ e.config.min_score ∧ q.2.inlier_ratio ≥ e.config.min_inlier_ratio) := by
    rw [hnone]; intro q hq; simp at hq
  have hex := registerLoop_exhaust e src_img ref_img e.algorithms none []
    (unacc_of_okOutcomes e.config e.algorithms src_img ref_img hacc)
  constructor
  · rw [register, hex, hnone]
    simp [foldBest, finalize]
  · intro n hn
    have h2 : (joinComma (e.algorithms.map Prod.fst)).data <:+:
        ((("No alignment produced a valid homography. Attempted: ") ++
          joinComma (e.algorithms.map Prod.fst)).data) :=
      ⟨("No alignment produced a valid homography. Attempted: ").data, [],
        by simp [String.data_append]⟩
    exact (mem_infix_joinComma _ n hn).trans h2

/-- Post-loop resolution only reads the engine's config. -/
theorem finalize_congr {Img H M : Type} (self self' : ImageRegistrationEngine Img H M)
    (hcfg : self.config = self'.config)
    (best : Option (String × RegistrationResult H M)) (attempts : List String) :
    finalize self best attempts = finalize self' best attempts := by
  simp only [finalize, hcfg]

/-- The outcome component of the trial loop only reads the engine's
config, not its registry field. -/
theorem registerLoop_fst_congr {Img H M : Type}
    (self self' : ImageRegistrationEngine Img H M)
    (hcfg : self.config = self'.config) (src_img ref_img : Img) :
    ∀ (l : List (String × AlgorithmBase Img H M)) best attempts,
      (registerLoop self src_img ref_img l best attempts).1 =
        (registerLoop self' src_img ref_img l best attempts).1 := by
  intro l
  induction l with
  | nil =>
    intro best attempts
    simp [registerLoop, finalize_congr self self' hcfg]
  | cons hd tl ih =>
    intro best attempts
    obtain ⟨name, algo⟩ := hd
    cases h : algo src_img ref_img with
    | ok result =>
      have hcond : is_acceptable self'.config result = is_acceptable self.config result := by
        rw [hcfg]
      by_cases hacc : is_acceptable self.config result = true
      · simp [registerLoop, h, hacc, hcond]
      · simp [registerLoop, h, hacc, hcond, ih]
    | empty => simp [registerLoop, h, ih]
    | fault m => simp [registerLoop, h, ih]

/-- A faulting entry is handled exactly like an entry returning `None`:
the loop outcome is unchanged when one is swapped for the other. -/
theorem registerLoop_fault_as_empty {Img H M : Type}
    (self : ImageRegistrationEngine Img H M) (src_img ref_img : Img) (nm : String)
    (aF aN : AlgorithmBase Img H M) (post : List (String × AlgorithmBase Img H M))
    (m : String) (hF : aF src_img ref_img = .fault m) (hN : aN src_img ref_img = .empty) :
    ∀ (pre : List (String × AlgorithmBase Img H M)) best attempts,
      (registerLoop self src_img ref_img (pre ++ (nm, aF) :: post) best attempts).1 =
        (registerLoop self src_img ref_img (pre ++ (nm, aN) :: post) best attempts).1 := by
  intro pre
  induction pre with
  | nil => intro best attempts; simp [registerLoop, hF, hN]
  | cons hd tl ih =>
    intro best attempts
    obtain ⟨name, algo⟩ := hd
    cases h : algo src_img ref_img with
    | ok result =>
      by_cases hacc : is_acceptable self.config result = true
      · simp [registerLoop, h, hacc]
      · simp [registerLoop, h, hacc, ih]
    | empty => simp [registerLoop, h, ih]
    | fault mm => simp [registerLoop, h, ih]

/-- Whenever the trial loop returns an output, the attempts it carries
extend the attempts accumulated so far. -/
theorem registerLoop_attempts_extend {Img H M : Type}
    (self : ImageRegistrationEngine Img H M) (src_img ref_img : Img) :
    ∀ (l : List (String × AlgorithmBase Img H M)) best attempts out,
      (registerLoop self src_img ref_img l best attempts).1 = .ok out →
      attempts <+: out.attempts := by
  intro l
  induction l with
  | nil =>
    intro best attempts out h
    cases best with
    | none => simp [registerLoop, finalize] at h
    | some b =>
      obtain ⟨bn, br⟩ := b
      by_cases hfb : self.config.enable_fallback = true
      · simp [registerLoop, finalize, hfb] at h
        rw [← h]
      · simp [registerLoop, finalize, Bool.eq_false_iff.mpr hfb] at h
  | cons hd tl ih =>
    intro best attempts out h
    obtain ⟨name, algo⟩ := hd
    cases ho : algo src_img ref_img with
    | ok result =>
      by_cases hacc : is_acceptable self.config result = true
      · simp [registerLoop, ho, hacc] at h
        rw [← h]
        exact List.prefix_append _ _
      · have h' : (registerLoop self src_img ref_img tl (updateBest best name result)
            (attempts ++ [name])).1 = .ok out := by
          simpa [registerLoop, ho, hacc] using h
        exact (List.prefix_append attempts [name]).trans (ih _ _ _ h')
    | empty =>
      have h' : (registerLoop self src_img ref_img tl best (attempts ++ [name])).1 =
          .ok out := by
        simpa [registerLoop, ho] using h
      exact (List.prefix_append attempts [name]).trans (ih _ _ _ h')
    | fault m =>
      have h' : (registerLoop self src_img ref_img tl best (attempts ++ [name])).1 =
          .ok out := by
        simpa [registerLoop, ho] using h
      exact (List.prefix_append attempts [name]).trans (ih _ _ _ h')

/-- C7: an exception raised by an algorithm's align call is caught at
the call site and treated exactly like an empty outcome — the overall
register() outcome is the same as if the algorithm had returned `None`
(the loop continues; the fault aborts nothing and never propagates),
and when the call returns an output after earlier non-acceptable
entries, the faulting algorithm's name sits in the attempts list right
at its invocation position. -/
theorem register_fault_isolated {Img H M : Type} (cfg : EngineConfig)
    (pre post : List (String × AlgorithmBase Img H M)) (nm : String)
    (aF aN : AlgorithmBase Img H M) (src_img ref_img : Img) (m : String)
    (hF : aF src_img ref_img = .fault m) (hN : aN src_img ref_img = .empty) :
    (register ⟨pre ++ (nm, aF) :: post, cfg⟩ src_img ref_img).1 =
      (register ⟨pre ++ (nm, aN) :: post, cfg⟩ src_img ref_img).1 ∧
    ((∀ q ∈ okOutcomes pre src_img ref_img,
        ¬ (q.2.score ≥ cfg.min_score ∧ q.2.inlier_ratio ≥ cfg.min_inlier_ratio)) →
      ∀ out, (register ⟨pre ++ (nm, aF) :: post, cfg⟩ src_img ref_img).1 = .ok out →
        pre.map Prod.fst ++ [nm] <+: out.attempts) := by
  constructor
  · have h1 := registerLoop_fst_congr (⟨pre ++ (nm, aF) :: post, cfg⟩ :
        ImageRegistrationEngine Img H M) ⟨pre ++ (nm, aN) :: post, cfg⟩ rfl
      src_img ref_img (pre ++ (nm, aF) :: post) none []
    have h2 := registerLoop_fault_as_empty (⟨pre ++ (nm, aN) :: post, cfg⟩ :
        ImageRegistrationEngine Img H M) src_img ref_img nm aF aN post m hF hN pre none []
    rw [register, register]
    exact h1.trans h2
  · intro hpre out hout
    obtain ⟨best', hb⟩ := registerLoop_skip (⟨pre ++ (nm, aF) :: post, cfg⟩ :
        ImageRegistrationEngine Img H M) src_img ref_img pre ((nm, aF) :: post) none []
      (unacc_of_okOutcomes cfg pre src_img ref_img hpre)
    rw [register] at hout
    rw [hb] at hout
    have hstep : (registerLoop (⟨pre ++ (nm, aF) :: post, cfg⟩ :
        ImageRegistrationEngine Img H M) src_img ref_img post best'
          ((([] : List String) ++ pre.map Prod.fst) ++ [nm])).1 = .ok out := by
      simpa [registerLoop, hF] using hout
    have := registerLoop_attempts_extend _ src_img ref_img post best' _ out hstep
    simpa using this

/-- Classifier used to state that a failure is not a
`ConfigurationError`. -/
def raisesConfigError {α : Type} : Except PyError α → Bool
  | .error (.configurationError _) => true
  | _ => false

/-- C8: constructing a `RegistrationResult` fails (with `ValueError`)
exactly when score or inlier ratio is outside `[0,1]` or the match
count is negative, and an in-range construction stores the four values
unchanged — no silent clamping. -/
theorem registration_result_validation {H M : Type}
    (score inlier_ratio : ℚ) (homography : H) (matches_count : ℤ) (metadata : Option M) :
    ((∃ msg, mkRegistrationResult score inlier_ratio homography matches_count metadata =
        .error (.valueError msg)) ↔
      ¬ (0 ≤ score ∧ score ≤ 1 ∧ 0 ≤ inlier_ratio ∧ inlier_ratio ≤ 1 ∧
        0 ≤ matches_count)) ∧
    ((0 ≤ score ∧ score ≤ 1 ∧ 0 ≤ inlier_ratio ∧ inlier_ratio ≤ 1 ∧ 0 ≤ matches_count) →
      mkRegistrationResult score inlier_ratio homography matches_count metadata =
        .ok ⟨score, inlier_ratio, homography, matches_count, metadata⟩) := by
  by_cases h1 : 0 ≤ score ∧ score ≤ 1
  · by_cases h2 : 0 ≤ inlier_ratio ∧ inlier_ratio ≤ 1
    · by_cases h3 : matches_count < 0
      · rw [mkRegistrationResult, if_neg (not_not.mpr h1), if_neg (not_not.mpr h2),
          if_pos h3]
        refine ⟨⟨fun _ hc => absurd hc.2.2.2.2 (not_le.mpr h3), fun _ => ⟨_, rfl⟩⟩, ?_⟩
        intro hc; exact absurd hc.2.2.2.2 (not_le.mpr h3)
      · rw [mkRegistrationResult, if_neg (not_not.mpr h1), if_neg (not_not.mpr h2),
          if_neg h3]
        refine ⟨⟨?_, fun hc =>
          absurd ⟨h1.1, h1.2, h2.1, h2.2, not_lt.mp h3⟩ hc⟩, fun _ => rfl⟩
        rintro ⟨msg, hmsg⟩
        simp at hmsg
    · rw [mkRegistrationResult, if_neg (not_not.mpr h1), if_pos h2]
      refine ⟨⟨fun _ hc => h2 ⟨hc.2.2.1, hc.2.2.2.1⟩, fun _ => ⟨_, rfl⟩⟩, ?_⟩
      intro hc; exact absurd ⟨hc.2.2.1, hc.2.2.2.1⟩ h2
  · rw [mkRegistrationResult, if_pos h1]
    refine ⟨⟨fun _ hc => h1 ⟨hc.1, hc.2.1⟩, fun _ => ⟨_, rfl⟩⟩, ?_⟩
    intro hc; exact absurd ⟨hc.1, hc.2.1⟩ h1

/-- C8 witness: an in-range construction at concrete values succeeds
and stores the values unchanged. -/
theorem registration_result_validation_witness :
    mkRegistrationResult (mkRat 92 100) (mkRat 75 100) () 150 (none : Option Unit) =
      .ok ⟨mkRat 92 100, mkRat 75 100, (), 150, none⟩ :=
  (registration_result_validation (mkRat 92 100) (mkRat 75 100) () 150 none).2 (by decide)

/-- C4 (amended): constructing the engine with zero algorithms and
removing the last remaining algorithm fail with `ConfigurationError`;
a config threshold outside `[0,1]` also fails at construction time,
but with Python's builtin `ValueError`, not `ConfigurationError`. -/
theorem configuration_failures {Img H M : Type} :
    (∀ (cfg : Option EngineConfig),
      ImageRegistrationEngine.init ([] : List (String × AlgorithmBase Img H M)) cfg =
        .error (.configurationError ("At least one algorithm must be provided"))) ∧
    (∀ (min_score min_inlier_ratio : ℚ) (enable_fallback : Bool),
      (¬ (0 ≤ min_score ∧ min_score ≤ 1) ∨
        ¬ (0 ≤ min_inlier_ratio ∧ min_inlier_ratio ≤ 1)) →
      ∃ msg, mkEngineConfig min_score min_inlier_ratio enable_fallback =
        .error (.valueError msg)) ∧
    (∀ (e : ImageRegistrationEngine Img H M) (name : String), e.algorithms.length = 1 →
      unregister_algorithm e name =
        .error (.configurationError ("Cannot remove the last algorithm"))) := by
  refine ⟨fun cfg => rfl, ?_, ?_⟩
  · intro ms mir fb h
    by_cases h1 : 0 ≤ ms ∧ ms ≤ 1
    · have h2 : ¬ (0 ≤ mir ∧ mir ≤ 1) := h.resolve_left (not_not.mpr h1)
      exact ⟨("min_inlier_ratio must be in [0.0, 1.0], got ") ++ fmt mir,
        by simp [mkEngineConfig, h1, h2]⟩
    · exact ⟨("min_score must be in [0.0, 1.0], got ") ++ fmt ms,
        by simp [mkEngineConfig, h1]⟩
  · intro e name hlen
    simp [unregister_algorithm, hlen]

/-- C4 counterexample: a config constructed with `min_score = 2`
(outside `[0,1]`) fails with `ValueError`, not `ConfigurationError` as
the claim states. -/
theorem config_threshold_error_type_counterexample :
    mkEngineConfig 2 (mkRat 6 10) true =
      .error (.valueError (("min_score must be in [0.0, 1.0], got ") ++ fmt 2)) ∧
    raisesConfigError (mkEngineConfig 2 (mkRat 6 10) true) = false := by
  constructor
  · decide
  · decide

/-- C4 witness: the three failure modes at concrete inputs. -/
theorem configuration_failures_witness :
    (ImageRegistrationEngine.init ([] : List (String × AlgorithmBase Unit Unit Unit)) none =
      .error (.configurationError ("At least one algorithm must be provided"))) ∧
    (∃ msg, mkEngineConfig 2 (mkRat 6 10) true = .error (.valueError msg)) ∧
    (unregister_algorithm (⟨[("SIFT", fun _ _ => AlignOutcome.empty)], {}⟩ :
        ImageRegistrationEngine Unit Unit Unit) "SIFT" =
      .error (.configurationError ("Cannot remove the last algorithm"))) :=
  ⟨(@configuration_failures Unit Unit Unit).1 none,
    (@configuration_failures Unit Unit Unit).2.1 2 (mkRat 6 10) true
      (Or.inl (by decide)),
    (@configuration_failures Unit Unit Unit).2.2 _ "SIFT" (by decide)⟩

/-- C5 (amended): unregister_algorithm fails with `ConfigurationError`
exactly when the registry currently holds exactly one entry — whether
or not the given name is present; with two or more entries, an absent
name is a no-op returning the engine unchanged, and any successful call
leaves exactly the entries whose key differs from the name, with the
config untouched. -/
theorem unregister_algorithm_spec {Img H M : Type}
    (e : ImageRegistrationEngine Img H M) (name : String) :
    ((∃ msg, unregister_algorithm e name = .error (.configurationError msg)) ↔
      e.algorithms.length = 1) ∧
    (e.algorithms.length ≠ 1 → name ∉ e.algorithms.map Prod.fst →
      unregister_algorithm e name = .ok e) ∧
    (e.algorithms.length ≠ 1 → ∀ e', unregister_algorithm e name = .ok e' →
      e'.algorithms = e.algorithms.filter (fun p => decide (p.1 ≠ name)) ∧
        e'.config = e.config) := by
  refine ⟨⟨?_, ?_⟩, ?_, ?_⟩
  · rintro ⟨msg, hmsg⟩
    by_cases hlen : e.algorithms.length = 1
    · exact hlen
    · rw [unregister_algorithm, if_neg hlen] at hmsg
      split_ifs at hmsg <;> simp at hmsg
  · intro hlen
    exact ⟨"Cannot remove the last algorithm", by simp [unregister_algorithm, hlen]⟩
  · intro hlen habs
    have hany : e.algorithms.any (fun p => decide (p.1 = name)) = false := by
      rw [List.any_eq_false]
      intro p hp
      simp only [decide_eq_true_eq]
      intro hq
      exact habs (hq ▸ List.mem_map_of_mem Prod.fst hp)
    simp [unregister_algorithm, hlen, hany]
  · intro hlen e' h
    rw [unregister_algorithm, if_neg hlen] at h
    by_cases hany : e.algorithms.any (fun p => decide (p.1 = name)) = true
    · rw [if_pos hany] at h
      simp only [Except.ok.injEq] at h
      rw [← h]
      exact ⟨rfl, rfl⟩
    · rw [if_neg hany] at h
      simp only [Except.ok.injEq] at h
      rw [← h]
      refine ⟨?_, rfl⟩
      rw [List.filter_eq_self.mpr]
      intro p hp
      simp only [decide_eq_true_eq]
      intro hq
      exact hany (List.any_eq_true.mpr ⟨p, hp, by simp [hq]⟩)

/-- Engine used to refute the no-op part of the claim: a single-entry
registry. -/
def soloEngine : ImageRegistrationEngine Unit Unit Unit :=
  ⟨[("SIFT", fun _ _ => AlignOutcome.empty)], {}⟩

/-- C5 counterexample: with one registered algorithm, removing a name
that is not present would be a no-op leaving the registry non-empty,
yet the code raises `ConfigurationError` — the length guard runs before
the membership check. -/
theorem unregister_absent_name_counterexample :
    ("ghost" ∉ soloEngine.algorithms.map Prod.fst) ∧
    unregister_algorithm soloEngine "ghost" =
      .error (.configurationError ("Cannot remove the last algorithm")) := by
  constructor
  · decide
  · rfl

/-- Engine with two entries used for the C5 witness. -/
def duoEngine : ImageRegistrationEngine Unit Unit Unit :=
  ⟨[("SIFT", fun _ _ => AlignOutcome.empty), ("ORB", fun _ _ => AlignOutcome.empty)], {}⟩

/-- C5 witness: with two entries, removing an absent name is a no-op. -/
theorem unregister_algorithm_spec_witness :
    unregister_algorithm duoEngine "ghost" = .ok duoEngine :=
  (unregister_algorithm_spec duoEngine "ghost").2.1 (by decide) (by decide)

/-- C10: register_algorithm with an already-present name replaces the
stored algorithm at its original position — the key sequence is
unchanged, the matching index now holds the new entry, every other
index is untouched; with a new name, the entry is appended after all
existing ones.  The config is never touched. -/
theorem register_algorithm_spec {Img H M : Type}
    (e : ImageRegistrationEngine Img H M) (name : String)
    (algorithm : AlgorithmBase Img H M) :
    (name ∈ e.algorithms.map Prod.fst →
      ((register_algorithm e name algorithm).algorithms.map Prod.fst =
        e.algorithms.map Prod.fst) ∧
      (∀ i (h1 : i < e.algorithms.length)
          (h2 : i < (register_algorithm e name algorithm).algorithms.length),
        ((e.algorithms.get ⟨i, h1⟩).1 = name →
          (register_algorithm e name algorithm).algorithms.get ⟨i, h2⟩ =
            (name, algorithm)) ∧
        ((e.algorithms.get ⟨i, h1⟩).1 ≠ name →
          (register_algorithm e name algorithm).algorithms.get ⟨i, h2⟩ =
            e.algorithms.get ⟨i, h1⟩))) ∧
    (name ∉ e.algorithms.map Prod.fst →
      (register_algorithm e name algorithm).algorithms =
        e.algorithms ++ [(name, algorithm)]) ∧
    (register_algorithm e name algorithm).config = e.config := by
  refine ⟨?_, ?_, rfl⟩
  · intro hmem
    obtain ⟨p, hp, hpn⟩ := List.mem_map.mp hmem
    have hany : e.algorithms.any (fun p => decide (p.1 = name)) = true :=
      List.any_eq_true.mpr ⟨p, hp, by simp [hpn]⟩
    have halg : (register_algorithm e name algorithm).algorithms =
        e.algorithms.map (fun p => if p.1 = name then (name, algorithm) else p) := by
      simp [register_algorithm, hany]
    constructor
    · rw [halg, List.map_map]
      refine List.map_congr_left ?_
      intro q _
      by_cases hq : q.1 = name
      · simp [Function.comp, hq]
      · simp [Function.comp, hq]
    · intro i h1 h2
      have hget : (register_algorithm e name algorithm).algorithms.get ⟨i, h2⟩ =
          if (e.algorithms.get ⟨i, h1⟩).1 = name then (name, algorithm)
          else e.algorithms.get ⟨i, h1⟩ := by
        have h3 := List.get_of_eq halg ⟨i, h2⟩
        rw [List.get_map] at h3
        exact h3
      constructor
      · intro heq
        rw [hget, if_pos heq]
      · intro hne
        rw [hget, if_neg hne]
  · intro hmem
    have hany : e.algorithms.any (fun p => decide (p.1 = name)) = false := by
      rw [List.any_eq_false]
      intro p hp
      simp only [decide_eq_true_eq]
      intro hq
      exact hmem (hq ▸ List.mem_map_of_mem Prod.fst hp)
    simp [register_algorithm, hany]

/-- Registry used by the C10 witness. -/
def duoEngineW : ImageRegistrationEngine Unit Unit Unit :=
  ⟨[("alpha", fun _ _ => AlignOutcome.empty), ("beta", fun _ _ => AlignOutcome.empty)], {}⟩

/-- C10 witness: overwriting an existing name keeps the key order;
inserting a fresh name appends it. -/
theorem register_algorithm_spec_witness :
    ((register_algorithm duoEngineW "alpha"
        (fun _ _ => AlignOutcome.fault "boom")).algorithms.map Prod.fst =
      duoEngineW.algorithms.map Prod.fst) ∧
    (register_algorithm duoEngineW "gamma"
        (fun _ _ => AlignOutcome.empty)).algorithms =
      duoEngineW.algorithms ++ [("gamma", fun _ _ => AlignOutcome.empty)] :=
  ⟨((register_algorithm_spec duoEngineW "alpha" (fun _ _ => AlignOutcome.fault "boom")).1
      (by decide)).1,
    (register_algorithm_spec duoEngineW "gamma" (fun _ _ => AlignOutcome.empty)).2.1
      (by decide)⟩

/-- Algorithm returning a below-default-threshold result, as in the
test suite's mediocre fixture. -/
def algORB : AlgorithmBase Unit Unit Unit :=
  fun _ _ => AlignOutcome.ok ⟨mkRat 70 100, mkRat 45 100, (), 80, none⟩

/-- Algorithm returning a result exactly at the default thresholds. -/
def algSIFTexact : AlgorithmBase Unit Unit Unit :=
  fun _ _ => AlignOutcome.ok ⟨mkRat 85 100, mkRat 6 10, (), 100, none⟩

/-- Engine for the C2 witness: a non-acceptable entry followed by one
exactly at the default thresholds. -/
def engBoundary : ImageRegistrationEngine Unit Unit Unit :=
  ⟨[("ORB", algORB), ("SIFT", algSIFTexact)], {}⟩

/-- C2 witness: the boundary result with `score == min_score` and
`inlier_ratio == min_inlier_ratio` exactly is accepted, the earlier
algorithm having failed the gate. -/
theorem register_early_exit_witness :
    (register engBoundary () ()).1 =
      .ok ⟨"SIFT", "accepted", ⟨mkRat 85 100, mkRat 6 10, (), 100, none⟩,
        ["ORB", "SIFT"]⟩ :=
  register_early_exit engBoundary () () [("ORB", algORB)] [] "SIFT" algSIFTexact
    ⟨mkRat 85 100, mkRat 6 10, (), 100, none⟩ rfl (by decide) rfl (by decide) (by decide)

/-- Algorithm whose non-empty result scores 0 on both metrics. -/
def algLowA : AlgorithmBase Unit Unit Unit :=
  fun _ _ => AlignOutcome.ok ⟨0, 0, (), 0, none⟩

/-- Algorithm whose non-empty result has full score but zero inlier
ratio. -/
def algLowB : AlgorithmBase Unit Unit Unit :=
  fun _ _ => AlignOutcome.ok ⟨1, 0, (), 0, none⟩

/-- Fallback-enabled engine whose thresholds no outcome meets. -/
def engStrict : ImageRegistrationEngine Unit Unit Unit :=
  ⟨[("alpha", algLowA), ("beta", algLowB)], ⟨1, 1, true⟩⟩

/-- C1 witness: both results miss the thresholds, so the higher-scoring
later one is returned as the fallback. -/
theorem register_fallback_best_witness :
    okOutcomes engStrict.algorithms () () ≠ [] ∧
    (∃ l1 bn br l2, okOutcomes engStrict.algorithms () () = l1 ++ (bn, br) :: l2 ∧
      (∀ q ∈ l1, q.2.score < br.score) ∧ (∀ q ∈ l2, q.2.score ≤ br.score) ∧
      (register engStrict () ()).1 =
        .ok ⟨bn, "fallback_low_confidence", br, engStrict.algorithms.map Prod.fst⟩) :=
  ⟨by decide, register_fallback_best engStrict () () rfl (by decide) (by decide)⟩

/-- Fallback-disabled engine whose thresholds no outcome meets. -/
def engStrictNoFb : ImageRegistrationEngine Unit Unit Unit :=
  ⟨[("alpha", algLowA), ("beta", algLowB)], ⟨1, 1, false⟩⟩

set_option maxRecDepth 8000 in
/-- C3 counterexample: with fallback disabled, the raised error's
message reports the thresholds and the best score and names `beta`,
the best-scoring algorithm, but does not name the attempted algorithm
`alpha` — contrary to the claim that it names every attempted
algorithm. -/
theorem no_fallback_message_counterexample :
    ("alpha" ∈ engStrictNoFb.algorithms.map Prod.fst) ∧
    (register engStrictNoFb () ()).1 = .error (.registrationError
      ("No alignment met quality thresholds (min_score=1, min_inlier_ratio=1). Best score: 1 from beta")) ∧
    ¬ ("alpha".data <:+:
      ("No alignment met quality thresholds (min_score=1, min_inlier_ratio=1). Best score: 1 from beta").data) := by
  refine ⟨by decide, by decide, by decide⟩

/-- C3 (amended) witness: the fallback-disabled failure at a concrete
engine, through the amended theorem. -/
theorem register_no_fallback_error_witness :
    engStrictNoFb.config.enable_fallback = false ∧
    okOutcomes engStrictNoFb.algorithms () () ≠ [] ∧
    (∃ l1 bn br l2, okOutcomes engStrictNoFb.algorithms () () = l1 ++ (bn, br) :: l2 ∧
      (∀ q ∈ l1, q.2.score < br.score) ∧ (∀ q ∈ l2, q.2.score ≤ br.score) ∧
      (register engStrictNoFb () ()).1 = .error (.registrationError
        (("No alignment met quality thresholds (min_score=") ++
          fmt engStrictNoFb.config.min_score ++
          ", min_inlier_ratio=" ++ fmt engStrictNoFb.config.min_inlier_ratio ++
          "). Best score: " ++ fmt br.score ++ " from " ++ bn))) :=
  ⟨rfl, by decide, register_no_fallback_error engStrictNoFb () () rfl (by decide) (by decide)⟩

/-- Engine whose two algorithms fault and return `None` respectively. -/
def engAllFail : ImageRegistrationEngine Unit Unit Unit :=
  ⟨[("Fail1", fun _ _ => AlignOutcome.fault "Simulated algorithm failure"),
    ("Fail2", fun _ _ => AlignOutcome.empty)], {}⟩

/-- C6 witness: the total-failure error at a concrete engine, naming
both algorithms. -/
theorem register_all_unusable_error_witness :
    okOutcomes engAllFail.algorithms () () = [] ∧
    ((register engAllFail () ()).1 = .error (.registrationError
      (("No alignment produced a valid homography. Attempted: ") ++
        joinComma (engAllFail.algorithms.map Prod.fst))) ∧
      ∀ n ∈ engAllFail.algorithms.map Prod.fst,
        n.data <:+: (("No alignment produced a valid homography. Attempted: ") ++
          joinComma (engAllFail.algorithms.map Prod.fst)).data) :=
  ⟨by decide, register_all_unusable_error engAllFail () () (by decide)⟩

/-- Faulting algorithm used by the C7 witness. -/
def algFaultW : AlgorithmBase Unit Unit Unit :=
  fun _ _ => AlignOutcome.fault "Simulated algorithm failure"

/-- Empty-outcome algorithm used by the C7 witness. -/
def algEmptyW : AlgorithmBase Unit Unit Unit :=
  fun _ _ => AlignOutcome.empty

/-- Acceptable algorithm used by the C7 witness. -/
def algGoodW : AlgorithmBase Unit Unit Unit :=
  fun _ _ => AlignOutcome.ok ⟨mkRat 92 100, mkRat 75 100, (), 150, none⟩

/-- C7 witness: a faulting first algorithm behaves exactly like one
returning `None`, and its name heads the attempts of the output. -/
theorem register_fault_isolated_witness :
    algFaultW () () = .fault "Simulated algorithm failure" ∧
    algEmptyW () () = .empty ∧
    ((register (⟨[] ++ ("FailAlgo", algFaultW) :: [("SIFT", algGoodW)], {}⟩ :
        ImageRegistrationEngine Unit Unit Unit) () ()).1 =
      (register (⟨[] ++ ("FailAlgo", algEmptyW) :: [("SIFT", algGoodW)], {}⟩ :
        ImageRegistrationEngine Unit Unit Unit) () ()).1 ∧
      ((∀ q ∈ okOutcomes ([] : List (String × AlgorithmBase Unit Unit Unit)) () (),
          ¬ (q.2.score ≥ ({} : EngineConfig).min_score ∧
            q.2.inlier_ratio ≥ ({} : EngineConfig).min_inlier_ratio)) →
        ∀ out, (register (⟨[] ++ ("FailAlgo", algFaultW) :: [("SIFT", algGoodW)], {}⟩ :
            ImageRegistrationEngine Unit Unit Unit) () ()).1 = .ok out →
          ([] : List (String × AlgorithmBase Unit Unit Unit)).map Prod.fst ++ ["FailAlgo"] <+:
            out.attempts)) :=
  ⟨rfl, rfl, register_fault_isolated {} [] [("SIFT", algGoodW)] "FailAlgo" algFaultW
    algEmptyW () () "Simulated algorithm failure" rfl rfl⟩

end ImageRegistration
